import Mathlib

/-!
Verification development for the OUSD compensation calculation scripts.

The Python sources use unbounded integers and decimal arithmetic; we embed
integer quantities as Int and decimal quantities as Rat.  The decimal
constants appearing in the sources (0.25, 1.25, 1e18, 1000e18, 1492e14, ...)
are all exactly representable, so the rational embedding is exact.
-/

namespace OusdComp

/-! ## transform.py : data model -/

/-- Direction of a trade.  OUSD is always on the left, so LEFT means
buy OUSD and RIGHT means sell OUSD (transform.py, class Direction). -/
inductive Direction where
  | LEFT : Direction
  | RIGHT : Direction
deriving DecidableEq, Repr

/-- A swap tuple (ousd_value, counter_value, direction) as appended by
add_usdt_swap / add_usdc_swap / add_weth_swap in transform.py. -/
structure Swap where
  ousd_value : Int
  counter_value : Int
  dir : Direction
deriving DecidableEq, Repr

/-- Calculation parameters (transform.py, class CalcParameters).  All decimal
fields are embedded as rationals. -/
structure CalcParameters where
  split_threshold : Rat
  ousd_ogn_split : Rat
  ogn_price_usd : Rat
  eth_value_usd : Rat
  minimum_threshold : Rat
deriving DecidableEq, Repr

/-- The concrete parameters constructed in transform.py main():
split_threshold = Decimal(1000e18), ousd_ogn_split = Decimal(0.25),
ogn_price_usd = Decimal(1492e14), eth_value_usd = 578.24,
minimum_threshold = 1e16.  All of these floats convert exactly except
578.24; the value used here is the decimal literal, which only feeds the
WETH-gain conversion and is irrelevant to the integer-threshold claims. -/
def mainParams : CalcParameters where
  split_threshold := 10 ^ 21
  ousd_ogn_split := 1 / 4
  ogn_price_usd := 1492 * 10 ^ 14
  eth_value_usd := 57824 / 100
  minimum_threshold := 10 ^ 16

/-- Per-address ledger entry (transform.py, class Account).  The balance
fields are the additive accumulators initialised to 0 in __init__; the swap
lists and virgox proceeds list mirror the Python lists. -/
structure Account where
  address : String
  ousd_balance_start : Int := 0
  ousd_balance_end : Int := 0
  usdt_balance_start : Int := 0
  usdt_balance_end : Int := 0
  usdc_balance_start : Int := 0
  usdc_balance_end : Int := 0
  weth_balance_start : Int := 0
  weth_balance_end : Int := 0
  ousd_lp_start : Int := 0
  ousd_lp_end : Int := 0
  usdt_lp_start : Int := 0
  usdt_lp_end : Int := 0
  usdc_lp_start : Int := 0
  usdc_lp_end : Int := 0
  weth_lp_start : Int := 0
  weth_lp_end : Int := 0
  usdt_swaps : List Swap := []
  usdc_swaps : List Swap := []
  weth_swaps : List Swap := []
  virgox_proceeds : List Int := []
deriving DecidableEq, Repr

/-- Sum of the counter values of the swaps in the RIGHT direction, the body
shared by usdt_swap_in / usdc_swap_in / weth_swap_in. -/
def swapInSum (l : List Swap) : Int :=
  (l.map fun x => if x.dir = Direction.RIGHT then x.counter_value else 0).sum

/-- Sum of the counter values of the swaps in the LEFT direction, the body
shared by usdt_swap_out / usdc_swap_out / weth_swap_out. -/
def swapOutSum (l : List Swap) : Int :=
  (l.map fun x => if x.dir = Direction.LEFT then x.counter_value else 0).sum

/-- Incoming USDT from OUSD swaps (transform.py, usdt_swap_in). -/
def Account.usdt_swap_in (a : Account) : Int := swapInSum a.usdt_swaps

/-- Outgoing USDT from OUSD swaps (transform.py, usdt_swap_out). -/
def Account.usdt_swap_out (a : Account) : Int := swapOutSum a.usdt_swaps

/-- Incoming USDC from OUSD swaps (transform.py, usdc_swap_in). -/
def Account.usdc_swap_in (a : Account) : Int := swapInSum a.usdc_swaps

/-- Outgoing USDC from OUSD swaps (transform.py, usdc_swap_out). -/
def Account.usdc_swap_out (a : Account) : Int := swapOutSum a.usdc_swaps

/-- Incoming WETH from OUSD swaps (transform.py, weth_swap_in). -/
def Account.weth_swap_in (a : Account) : Int := swapInSum a.weth_swaps

/-- Outgoing WETH from OUSD swaps (transform.py, weth_swap_out). -/
def Account.weth_swap_out (a : Account) : Int := swapOutSum a.weth_swaps

/-- Net USDT gains from trading OUSD after the hack
(transform.py, trading_gain_usdt). -/
def Account.trading_gain_usdt (a : Account) : Int :=
  if a.ousd_balance_start + a.ousd_lp_start ≤ 0 then 0
  else a.usdt_swap_in - a.usdt_swap_out

/-- Net USDC gains from trading OUSD after the hack
(transform.py, trading_gain_usdc). -/
def Account.trading_gain_usdc (a : Account) : Int :=
  if a.ousd_balance_start + a.ousd_lp_start ≤ 0 then 0
  else a.usdc_swap_in - a.usdc_swap_out

/-- Net WETH gains from trading OUSD after the hack
(transform.py, trading_gain_weth). -/
def Account.trading_gain_weth (a : Account) : Int :=
  if a.ousd_balance_start + a.ousd_lp_start ≤ 0 then 0
  else a.weth_swap_in - a.weth_swap_out

/-- Gains trading OUSD on virgox after the hack
(transform.py, trading_gain_virgox). -/
def Account.trading_gain_virgox (a : Account) : Int :=
  if a.virgox_proceeds = [] then 0 else a.virgox_proceeds.sum

/-- transform.py, convert_decimals: val * pow(10, decout - decin).
Only ever called with decout ≥ decin (namely (6, 18)). -/
def convert_decimals (val : Int) (decin decout : Nat) : Int :=
  val * 10 ^ (decout - decin)

/-- Convert an ETH amount to USD value (transform.py, _eth_to_usd). -/
def Account.eth_to_usd (p : CalcParameters) (eth_value : Int) : Rat :=
  (eth_value : Rat) * p.eth_value_usd

/-- Total trading gain in USD (transform.py, trading_gain_total_usd). -/
def Account.trading_gain_total_usd (a : Account) (p : CalcParameters) : Rat :=
  (convert_decimals a.trading_gain_usdt 6 18 : Rat)
    + (convert_decimals a.trading_gain_usdc 6 18 : Rat)
    + Account.eth_to_usd p a.trading_gain_weth
    + (a.trading_gain_virgox : Rat)

/-- The reimbursable balance (transform.py, eligible_balance_usd). -/
def Account.eligible_balance_usd (a : Account) (p : CalcParameters) : Rat :=
  let diff : Rat :=
    (a.ousd_balance_start : Rat) + (a.ousd_lp_start : Rat)
      - max (a.trading_gain_total_usd p) 0
  if diff < p.minimum_threshold then 0 else diff

/-- Amount of OUSD this account can be compensated for
(transform.py, adjusted_ousd_compensation). -/
def Account.adjusted_ousd_compensation (a : Account) (p : CalcParameters) : Rat :=
  let eligible := a.eligible_balance_usd p
  if eligible ≤ p.split_threshold then eligible
  else
    let above_split := eligible - p.split_threshold
    ((⌊p.split_threshold + above_split * p.ousd_ogn_split⌋ : Int) : Rat)

/-- The OGN side of the original OUSD value split, the intermediate
ogn_usd_value of transform.py, adjusted_ogn_compensation. -/
def Account.ogn_usd_value (a : Account) (p : CalcParameters) : Rat :=
  let above_split := a.eligible_balance_usd p - p.split_threshold
  above_split - ((⌊above_split * p.ousd_ogn_split⌋ : Int) : Rat)

/-- Amount of OGN this account can be compensated for
(transform.py, adjusted_ogn_compensation).  The Python assert statement is
modelled by returning none when its condition fails. -/
def Account.adjusted_ogn_compensation (a : Account) (p : CalcParameters) :
    Option Int :=
  let eligible := a.eligible_balance_usd p
  if eligible ≤ p.split_threshold then some 0
  else
    if a.ogn_usd_value p + a.adjusted_ousd_compensation p
        = a.eligible_balance_usd p then
      some ⌊a.ogn_usd_value p / p.ogn_price_usd * 10 ^ 18⌋
    else none

/-- The numeric content of one output row of transform.py, Account.to_list.
The human columns hold the exact rational values handed to the locale
currency formatter; the raw columns hold the Decimal values printed as-is. -/
structure CompRow where
  address : String
  eligible_human : Rat
  ousd_comp_human : Rat
  ogn_comp_w_interest_human : Rat
  ogn_comp_human : Rat
  eligible_raw : Rat
  ousd_comp_raw : Rat
  ogn_comp_raw : Rat
deriving DecidableEq, Repr

/-- transform.py, Account.to_list.  Returns none when the internal assert of
adjusted_ogn_compensation fails (the Python process would abort). -/
def Account.to_list (a : Account) (p : CalcParameters) : Option CompRow :=
  match a.adjusted_ogn_compensation p with
  | none => none
  | some ogn =>
      some
        { address := a.address
          eligible_human := a.eligible_balance_usd p / 10 ^ 18
          ousd_comp_human := a.adjusted_ousd_compensation p / 10 ^ 18
          ogn_comp_w_interest_human := (ogn : Rat) * (5 / 4) / 10 ^ 18
          ogn_comp_human := (ogn : Rat) / 10 ^ 18
          eligible_raw := a.eligible_balance_usd p
          ousd_comp_raw := a.adjusted_ousd_compensation p
          ogn_comp_raw := (ogn : Rat) }

/-! ## uniswap_swaps.py : swap flow classifier -/

/-- The fields of a Uniswap V2 Swap event used by uniswap_swaps.py main(). -/
structure SwapEvent where
  amount0In : Int
  amount0Out : Int
  amount1In : Int
  amount1Out : Int
deriving DecidableEq, Repr

/-- Trade direction as a string tag, per uniswap_swaps.py:
right by default, left when amount0Out > amount1Out. -/
inductive SwapDir where
  | left : SwapDir
  | right : SwapDir
deriving DecidableEq, Repr

/-- uniswap_swaps.py, main(): direction = right unless
amount0Out > amount1Out. -/
def swapDirection (e : SwapEvent) : SwapDir :=
  if e.amount1Out < e.amount0Out then SwapDir.left else SwapDir.right

/-- uniswap_swaps.py, main(): the token0 (tracked asset) change figure. -/
def aChange (e : SwapEvent) : Int :=
  if swapDirection e = SwapDir.left then e.amount0Out - e.amount0In
  else e.amount0In

/-- uniswap_swaps.py, main(): the token1 (counter asset) change figure. -/
def bChange (e : SwapEvent) : Int :=
  if swapDirection e = SwapDir.left then e.amount1In
  else e.amount1Out - e.amount1In

/-- One classified swap record (direction and the two change figures),
the per-event output of uniswap_swaps.py main(). -/
structure SwapRecordOut where
  direction : SwapDir
  token0_amount : Int
  token1_amount : Int
deriving DecidableEq, Repr

/-- uniswap_swaps.py, main(): classify one Swap event; a transaction with a
failed receipt status is skipped entirely. -/
def classifySwap (receiptStatus : Bool) (e : SwapEvent) : Option SwapRecordOut :=
  if receiptStatus then
    some { direction := swapDirection e
           token0_amount := aChange e
           token1_amount := bChange e }
  else none

/-! ## Participant discovery (uniswap_lps.py / sushiswap_lps.py /
mooniswap_lps.py / snowswap_stakers.py) -/

/-- The zero address constant shared by the scripts. -/
def zeroAddress : String := "0x0000000000000000000000000000000000000000"

/-- uniswap_lps.py / sushiswap_lps.py add-liquidity signature constants. -/
def addLiquditySig : String := "0xe8e33700"

/-- ETH add-liquidity signature constant. -/
def addLiqudityEthSig : String := "0xf305d719"

/-- Zapper.fi signature accepted additionally by sushiswap_lps.py. -/
def zapInEthSig : String := "0x1d572320"

/-- Signature set enumerated by uniswap_lps.py. -/
def uniswapSigs : List String := [addLiquditySig, addLiqudityEthSig]

/-- Signature set enumerated by sushiswap_lps.py. -/
def sushiswapSigs : List String := [addLiquditySig, addLiqudityEthSig, zapInEthSig]

/-- A Mint event joined with its originating transaction, as consumed by the
mint loops of uniswap_lps.py and sushiswap_lps.py: the transaction input data,
the transaction sender (the from field), and the sender logged in the event
args (typically the router). -/
structure MintEvent where
  txInput : String
  txFrom : String
  loggedSender : String
deriving DecidableEq, Repr

/-- Whether the signature is an initial segment of the transaction input,
the Python str.startswith check on the call data. -/
def sigMatches (sig input : String) : Bool :=
  sig.data.isPrefixOf input.data

/-- Whether a transaction input starts with one of the enumerated
add-liquidity entry-point signatures. -/
def recognizedOrigin (sigs : List String) (input : String) : Bool :=
  sigs.any fun s => sigMatches s input

/-- Append an address to the accumulator when it passes the filter and is not
already present; the shared body of every addresses_of_interest update. -/
def addAddr (keep : String → Bool) (acc : List String) (a : String) :
    List String :=
  if keep a ∧ a ∉ acc then acc ++ [a] else acc

/-- Fold a stream of candidate addresses into the accumulator. -/
def collectAddrs (keep : String → Bool) (acc : List String)
    (l : List String) : List String :=
  l.foldl (addAddr keep) acc

/-- The mint loop of uniswap_lps.py / sushiswap_lps.py: abort (none) on the
first Mint event whose transaction input matches no enumerated signature;
otherwise record the transaction sender, excluding the zero address and
duplicates. -/
def processMints (sigs : List String) : List MintEvent → List String →
    Option (List String)
  | [], acc => some acc
  | m :: ms, acc =>
      if recognizedOrigin sigs m.txInput then
        processMints sigs ms (addAddr (fun a => a ≠ zeroAddress) acc m.txFrom)
      else none

/-- uniswap_lps.py main(): mint loop then transfer-recipient loop, both
filtering out the zero address. -/
def uniswapDiscover (mints : List MintEvent) (transferTos : List String) :
    Option (List String) :=
  (processMints uniswapSigs mints []).map fun acc =>
    collectAddrs (fun a => a ≠ zeroAddress) acc transferTos

/-- mooniswap_lps.py main(): Deposited-event accounts then
transfer recipients; the filter is Python truthiness (account non-empty),
not a zero-address check. -/
def mooniswapDiscover (depositAccounts : List String)
    (transferTos : List String) : List String :=
  collectAddrs (fun a => a ≠ "")
    (collectAddrs (fun a => a ≠ "") [] depositAccounts) transferTos

/-- snowswap_stakers.py main(): Staked-event users; the filter is Python
truthiness (account non-empty), not a zero-address check. -/
def snowswapDiscover (stakeUsers : List String) : List String :=
  collectAddrs (fun a => a ≠ "") [] stakeUsers

/-! ## Ownership extraction runs -/

/-- MINIMUM_LIQUIDITY constant of uniswap_lps.py and sushiswap_lps.py. -/
def minimumLiquidity : Int := 1000

/-- MAX_ROUNDING_DRIFT constant of the three LP scripts. -/
def maxRoundingDrift : Rat := 10

/-- uniswap_lps.py main(): attributed amount of one reserve token for one
holder, computed in exact (Decimal) arithmetic: supply * ratio with
ratio = balance / (totalSupply - MINIMUM_LIQUIDITY), and 0 for a zero
balance. -/
def uniTokenBalance (supply ts bal : Int) : Rat :=
  if bal ≠ 0 then
    (supply : Rat) * ((bal : Rat) / ((ts : Rat) - (minimumLiquidity : Rat)))
  else 0

/-- Running total of attributed token-A amounts over the holder list
(uniswap_lps.py, running_total_a). -/
def uniRunningA (ts aS : Int) (bals : List Int) : Rat :=
  (bals.map (uniTokenBalance aS ts)).sum

/-- The record printed for one holder by uniswap_lps.py:
(lp_balance, floor(a_balance), floor(b_balance)). -/
def uniRecord (ts aS bS bal : Int) : Int × Int × Int :=
  (bal, ⌊uniTokenBalance aS ts bal⌋, ⌊uniTokenBalance bS ts bal⌋)

/-- The three conservation checks at the end of uniswap_lps.py main():
exact share-supply reconciliation and the two one-sided reserve drift
checks. -/
def uniswapChecksPass (ts aS bS : Int) (bals : List Int) : Bool :=
  (bals.sum == ts - minimumLiquidity)
    && decide ((aS : Rat) - uniRunningA ts aS bals ≤ maxRoundingDrift)
    && decide ((bS : Rat) - uniRunningA ts bS bals ≤ maxRoundingDrift)

/-- uniswap_lps.py main() as a run over a snapshot and the discovered holder
balances: the record set is accepted only when every conservation check
passes (any violation exits the process and the caller must discard the
incomplete output). -/
def uniswapRun (ts aS bS : Int) (bals : List Int) :
    Option (List (Int × Int × Int)) :=
  if uniswapChecksPass ts aS bS bals then some (bals.map (uniRecord ts aS bS))
  else none

/-- mooniswap_lps.py main(): attributed amount of one reserve token for one
holder; the ratio denominator is the full totalSupply (no burn constant). -/
def mooniTokenBalance (supply ts bal : Int) : Rat :=
  if bal ≠ 0 then (supply : Rat) * ((bal : Rat) / (ts : Rat)) else 0

/-- Running total of attributed token amounts over the holder list
(mooniswap_lps.py, running_total_a). -/
def mooniRunningA (ts aS : Int) (bals : List Int) : Rat :=
  (bals.map (mooniTokenBalance aS ts)).sum

/-- The checks at the end of mooniswap_lps.py main(): two two-sided reserve
drift checks only; there is no share-supply reconciliation check. -/
def mooniswapChecksPass (ts aS bS : Int) (bals : List Int) : Bool :=
  decide (|(aS : Rat) - mooniRunningA ts aS bals| ≤ maxRoundingDrift)
    && decide (|(bS : Rat) - mooniRunningA ts bS bals| ≤ maxRoundingDrift)

/-- The record printed for one holder by mooniswap_lps.py. -/
def mooniRecord (ts aS bS bal : Int) : Int × Int × Int :=
  (bal, ⌊mooniTokenBalance aS ts bal⌋, ⌊mooniTokenBalance bS ts bal⌋)

/-- mooniswap_lps.py main() as a run over a snapshot and holder balances. -/
def mooniswapRun (ts aS bS : Int) (bals : List Int) :
    Option (List (Int × Int × Int)) :=
  if mooniswapChecksPass ts aS bS bals then
    some (bals.map (mooniRecord ts aS bS))
  else none

/-- One discovered holder in sushiswap_lps.py: whether it is the MasterChef
staking contract, its direct pair balance, and its balance recorded inside
MasterChef userInfo. -/
structure SushiHolder where
  isChef : Bool
  lpBal : Int
  chefBal : Int
deriving DecidableEq, Repr

/-- Accumulator state of the holder loop in sushiswap_lps.py main(). -/
structure SushiState where
  mct : Int
  rt : Int
  rtnc : Int
  rta : Rat
  rtb : Rat
deriving DecidableEq, Repr

/-- One iteration of the holder loop of sushiswap_lps.py main(): the
MasterChef entry only records its own balance and is skipped; other holders
contribute their combined (direct + staked) balance. -/
def sushiStep (ts aS bS : Int) (st : SushiState) (h : SushiHolder) :
    SushiState :=
  if h.isChef then { st with mct := h.lpBal }
  else
    let combined := h.lpBal + h.chefBal
    let aBal := uniTokenBalance aS ts combined
    let bBal := uniTokenBalance bS ts combined
    { mct := st.mct
      rt := st.rt + combined
      rtnc := st.rtnc + h.lpBal
      rta := st.rta + aBal
      rtb := st.rtb + bBal }

/-- Final accumulator state after the holder loop of sushiswap_lps.py. -/
def sushiFinal (ts aS bS : Int) (holders : List SushiHolder) : SushiState :=
  holders.foldl (sushiStep ts aS bS) ⟨0, 0, 0, 0, 0⟩

/-- The four checks at the end of sushiswap_lps.py main(). -/
def sushiswapChecksPass (ts aS bS : Int) (holders : List SushiHolder) : Bool :=
  let st := sushiFinal ts aS bS holders
  (st.rtnc + st.mct == st.rt)
    && (st.rtnc + st.mct == ts - minimumLiquidity)
    && decide ((aS : Rat) - st.rta ≤ maxRoundingDrift)
    && decide ((bS : Rat) - st.rtb ≤ maxRoundingDrift)

/-- The record printed for one non-MasterChef holder by sushiswap_lps.py. -/
def sushiRecord (ts aS bS : Int) (h : SushiHolder) : Int × Int × Int :=
  (h.lpBal + h.chefBal,
    ⌊uniTokenBalance aS ts (h.lpBal + h.chefBal)⌋,
    ⌊uniTokenBalance bS ts (h.lpBal + h.chefBal)⌋)

/-- sushiswap_lps.py main() as a run over a snapshot and holder data. -/
def sushiswapRun (ts aS bS : Int) (holders : List SushiHolder) :
    Option (List (Int × Int × Int)) :=
  if sushiswapChecksPass ts aS bS holders then
    some ((holders.filter (fun h => !h.isChef)).map (sushiRecord ts aS bS))
  else none

/-! ## Derived quantities and helper lemmas -/

/-- The USD price of the secondary asset.  The ogn_price_usd parameter stores
the price scaled by 1e18 (Decimal(1492e14) encodes 0.1492 USD); this is the
corresponding plain USD price. -/
def secondaryAssetUsdPrice (p : CalcParameters) : Rat :=
  p.ogn_price_usd / 10 ^ 18

/-- When the eligible balance exceeds an integral split threshold, the OUSD
compensation is the threshold plus the floored primary share of the excess. -/
lemma adjusted_ousd_above (a : Account) (p : CalcParameters) (n : Int)
    (hn : p.split_threshold = (n : Rat))
    (h : p.split_threshold < a.eligible_balance_usd p) :
    a.adjusted_ousd_compensation p
      = p.split_threshold
        + ((⌊(a.eligible_balance_usd p - p.split_threshold)
            * p.ousd_ogn_split⌋ : Int) : Rat) := by
  unfold Account.adjusted_ousd_compensation
  rw [if_neg (not_le.mpr h), hn]
  show ((⌊(n : Rat) + (a.eligible_balance_usd p - (n : Rat))
      * p.ousd_ogn_split⌋ : Int) : Rat) = _
  rw [Int.floor_int_add]
  push_cast
  ring

/-- The internal consistency assertion of adjusted_ogn_compensation holds
whenever the split threshold is an integer. -/
lemma ogn_assert_holds (a : Account) (p : CalcParameters) (n : Int)
    (hn : p.split_threshold = (n : Rat))
    (h : p.split_threshold < a.eligible_balance_usd p) :
    a.ogn_usd_value p + a.adjusted_ousd_compensation p
      = a.eligible_balance_usd p := by
  rw [adjusted_ousd_above a p n hn h]
  unfold Account.ogn_usd_value
  ring

/-! ## Claim theorems for the compensation ledger -/

/-- C2: for every account whose eligible balance exceeds an integral split
threshold, the secondary USD remainder plus the primary compensation equals
the eligible balance exactly, and the internal consistency assertion inside
adjusted_ogn_compensation never aborts the computation. -/
theorem ogn_split_invariant (a : Account) (p : CalcParameters) (n : Int)
    (hn : p.split_threshold = (n : Rat))
    (h : p.split_threshold < a.eligible_balance_usd p) :
    (a.adjusted_ogn_compensation p).isSome = true
      ∧ a.ogn_usd_value p + a.adjusted_ousd_compensation p
          = a.eligible_balance_usd p := by
  refine ⟨?_, ogn_assert_holds a p n hn h⟩
  unfold Account.adjusted_ogn_compensation
  rw [if_neg (not_le.mpr h), if_pos (ogn_assert_holds a p n hn h)]
  rfl

/-- An account holding 5000 affected units (18 decimals) and nothing else. -/
def wholeAcct : Account :=
  { address := "0x01", ousd_balance_start := 5 * 10 ^ 21 }

/-- Witness for C2 at the concrete main() parameters and a concrete account
with eligible balance 5000e18 above the 1000e18 threshold. -/
theorem ogn_split_invariant_witness :
    mainParams.split_threshold = ((10 ^ 21 : Int) : Rat)
      ∧ mainParams.split_threshold
          < wholeAcct.eligible_balance_usd mainParams
      ∧ ((wholeAcct.adjusted_ogn_compensation mainParams).isSome = true
          ∧ wholeAcct.ogn_usd_value mainParams
              + wholeAcct.adjusted_ousd_compensation mainParams
              = wholeAcct.eligible_balance_usd mainParams) := by
  have h1 : mainParams.split_threshold = ((10 ^ 21 : Int) : Rat) := by
    norm_num [mainParams]
  have h2 : mainParams.split_threshold
      < wholeAcct.eligible_balance_usd mainParams := by
    simp [wholeAcct, mainParams, Account.eligible_balance_usd,
      Account.trading_gain_total_usd, Account.trading_gain_usdt,
      Account.trading_gain_usdc, Account.trading_gain_weth,
      Account.trading_gain_virgox, Account.eth_to_usd, convert_decimals,
      Account.usdt_swap_in, Account.usdt_swap_out, Account.usdc_swap_in,
      Account.usdc_swap_out, Account.weth_swap_in, Account.weth_swap_out,
      swapInSum, swapOutSum]
    norm_num
  exact ⟨h1, h2, ogn_split_invariant wholeAcct mainParams (10 ^ 21) h1 h2⟩

/-- C3: the two-branch split rule.  At or below an integral split threshold
the compensation is 100 percent primary and the secondary is zero; above it
the primary is the threshold plus the floored primary share of the excess and
the secondary is the floored quotient of the USD remainder by the secondary
asset USD price. -/
theorem compensation_split_rule (a : Account) (p : CalcParameters) (n : Int)
    (hn : p.split_threshold = (n : Rat)) :
    (a.eligible_balance_usd p ≤ p.split_threshold →
        a.adjusted_ousd_compensation p = a.eligible_balance_usd p
          ∧ a.adjusted_ogn_compensation p = some 0)
      ∧ (p.split_threshold < a.eligible_balance_usd p →
        a.adjusted_ousd_compensation p
            = p.split_threshold
              + ((⌊(a.eligible_balance_usd p - p.split_threshold)
                  * p.ousd_ogn_split⌋ : Int) : Rat)
          ∧ a.adjusted_ogn_compensation p
              = some ⌊a.ogn_usd_value p / secondaryAssetUsdPrice p⌋) := by
  constructor
  · intro h
    constructor
    · unfold Account.adjusted_ousd_compensation
      rw [if_pos h]
    · unfold Account.adjusted_ogn_compensation
      rw [if_pos h]
  · intro h
    refine ⟨adjusted_ousd_above a p n hn h, ?_⟩
    unfold Account.adjusted_ogn_compensation
    rw [if_neg (not_le.mpr h), if_pos (ogn_assert_holds a p n hn h)]
    congr 1
    unfold secondaryAssetUsdPrice
    rw [div_div_eq_mul_div, div_mul_eq_mul_div]

/-- Scenario B parameters: a split threshold of 1000 units. -/
def scenarioBParams : CalcParameters :=
  { split_threshold := 1000
    ousd_ogn_split := 1 / 4
    ogn_price_usd := 1492 * 10 ^ 14
    eth_value_usd := 600
    minimum_threshold := 0 }

/-- Scenario B account: eligible balance 500, below the threshold. -/
def scenarioBAcct : Account :=
  { address := "0x02", ousd_balance_start := 500 }

/-- Witness for C3 at Scenario B of the specification: eligible balance 500
against threshold 1000 yields primary compensation 500 and secondary 0. -/
theorem compensation_split_rule_witness :
    scenarioBParams.split_threshold = ((1000 : Int) : Rat)
      ∧ scenarioBAcct.eligible_balance_usd scenarioBParams
          ≤ scenarioBParams.split_threshold
      ∧ scenarioBAcct.adjusted_ousd_compensation scenarioBParams = 500
      ∧ scenarioBAcct.adjusted_ogn_compensation scenarioBParams = some 0 := by
  have h1 : scenarioBParams.split_threshold = ((1000 : Int) : Rat) := by
    norm_num [scenarioBParams]
  have he : scenarioBAcct.eligible_balance_usd scenarioBParams = 500 := by
    simp [scenarioBAcct, scenarioBParams, Account.eligible_balance_usd,
      Account.trading_gain_total_usd, Account.trading_gain_usdt,
      Account.trading_gain_usdc, Account.trading_gain_weth,
      Account.trading_gain_virgox, Account.eth_to_usd, convert_decimals,
      Account.usdt_swap_in, Account.usdt_swap_out, Account.usdc_swap_in,
      Account.usdc_swap_out, Account.weth_swap_in, Account.weth_swap_out,
      swapInSum, swapOutSum]
  have h2 : scenarioBAcct.eligible_balance_usd scenarioBParams
      ≤ scenarioBParams.split_threshold := by
    rw [he]; norm_num [scenarioBParams]
  have h3 := (compensation_split_rule scenarioBAcct scenarioBParams 1000 h1).1 h2
  exact ⟨h1, h2, by rw [h3.1, he], h3.2⟩

/-- C5: the eligible balance is the pre-incident base-plus-pooled balance
minus the clamped trading gain, zeroed below the minimum threshold, and is
never negative for a non-negative minimum threshold. -/
theorem eligible_balance_spec (a : Account) (p : CalcParameters) :
    ((a.ousd_balance_start : Rat) + (a.ousd_lp_start : Rat)
          - max (a.trading_gain_total_usd p) 0 < p.minimum_threshold →
        a.eligible_balance_usd p = 0)
      ∧ (p.minimum_threshold ≤ (a.ousd_balance_start : Rat)
            + (a.ousd_lp_start : Rat) - max (a.trading_gain_total_usd p) 0 →
        a.eligible_balance_usd p
          = (a.ousd_balance_start : Rat) + (a.ousd_lp_start : Rat)
            - max (a.trading_gain_total_usd p) 0)
      ∧ (0 ≤ p.minimum_threshold → 0 ≤ a.eligible_balance_usd p) := by
  unfold Account.eligible_balance_usd
  refine ⟨fun h => ?_, fun h => ?_, fun h => ?_⟩
  · simp only []
    rw [if_pos h]
  · simp only []
    rw [if_neg (not_lt.mpr h)]
  · simp only []
    split_ifs with h2
    · exact le_refl 0
    · exact le_trans h (not_lt.mp h2)

/-- Witness for C5 at the main() parameters and a concrete account whose
difference clears the minimum threshold. -/
theorem eligible_balance_spec_witness :
    mainParams.minimum_threshold
        ≤ (wholeAcct.ousd_balance_start : Rat)
          + (wholeAcct.ousd_lp_start : Rat)
          - max (wholeAcct.trading_gain_total_usd mainParams) 0
      ∧ wholeAcct.eligible_balance_usd mainParams
          = (wholeAcct.ousd_balance_start : Rat)
            + (wholeAcct.ousd_lp_start : Rat)
            - max (wholeAcct.trading_gain_total_usd mainParams) 0
      ∧ (0 ≤ mainParams.minimum_threshold
          → 0 ≤ wholeAcct.eligible_balance_usd mainParams) := by
  have hgain : wholeAcct.trading_gain_total_usd mainParams = 0 := by
    simp [wholeAcct, mainParams, Account.trading_gain_total_usd,
      Account.trading_gain_usdt, Account.trading_gain_usdc,
      Account.trading_gain_weth, Account.trading_gain_virgox,
      Account.eth_to_usd, convert_decimals, Account.usdt_swap_in,
      Account.usdt_swap_out, Account.usdc_swap_in, Account.usdc_swap_out,
      Account.weth_swap_in, Account.weth_swap_out, swapInSum, swapOutSum]
  have h1 : mainParams.minimum_threshold
      ≤ (wholeAcct.ousd_balance_start : Rat)
        + (wholeAcct.ousd_lp_start : Rat)
        - max (wholeAcct.trading_gain_total_usd mainParams) 0 := by
    rw [hgain]
    norm_num [wholeAcct, mainParams]
  exact ⟨h1, (eligible_balance_spec wholeAcct mainParams).2.1 h1,
    (eligible_balance_spec wholeAcct mainParams).2.2⟩

/-- C6: for each supported counter-asset the net swap flow is inflow minus
outflow when the pre-incident base-plus-pooled position is positive, and zero
when that position is zero or negative. -/
theorem net_swap_flow_spec (a : Account) :
    (0 < a.ousd_balance_start + a.ousd_lp_start →
        a.trading_gain_usdt = a.usdt_swap_in - a.usdt_swap_out
          ∧ a.trading_gain_usdc = a.usdc_swap_in - a.usdc_swap_out
          ∧ a.trading_gain_weth = a.weth_swap_in - a.weth_swap_out)
      ∧ (a.ousd_balance_start + a.ousd_lp_start ≤ 0 →
        a.trading_gain_usdt = 0 ∧ a.trading_gain_usdc = 0
          ∧ a.trading_gain_weth = 0) := by
  constructor
  · intro h
    have h2 := not_le.mpr h
    unfold Account.trading_gain_usdt Account.trading_gain_usdc
      Account.trading_gain_weth
    rw [if_neg h2, if_neg h2, if_neg h2]
    exact ⟨rfl, rfl, rfl⟩
  · intro h
    unfold Account.trading_gain_usdt Account.trading_gain_usdc
      Account.trading_gain_weth
    rw [if_pos h, if_pos h, if_pos h]
    exact ⟨rfl, rfl, rfl⟩

/-- An account with a positive pre-incident position and a mixed swap list. -/
def swapAcct : Account :=
  { address := "0x03"
    ousd_balance_start := 10
    usdt_swaps := [⟨3, 5, Direction.RIGHT⟩, ⟨1, 2, Direction.LEFT⟩] }

/-- Witness for C6 at a concrete account with a positive pre-incident
position: the USDT net flow is 5 - 2 = 3. -/
theorem net_swap_flow_spec_witness :
    0 < swapAcct.ousd_balance_start + swapAcct.ousd_lp_start
      ∧ swapAcct.trading_gain_usdt
          = swapAcct.usdt_swap_in - swapAcct.usdt_swap_out
      ∧ swapAcct.usdt_swap_in = 5 ∧ swapAcct.usdt_swap_out = 2 := by
  have h : 0 < swapAcct.ousd_balance_start + swapAcct.ousd_lp_start := by
    norm_num [swapAcct]
  refine ⟨h, ((net_swap_flow_spec swapAcct).1 h).1, ?_, ?_⟩
  · simp [swapAcct, Account.usdt_swap_in, swapInSum]
  · simp [swapAcct, Account.usdt_swap_out, swapOutSum]

/-- C10: in every emitted output row the with-interest secondary column is
1.25 times the raw OGN compensation scaled by 1e-18, the raw OGN column
carries the unmultiplied value, and no other column carries the bonus. -/
theorem output_row_bonus_column (a : Account) (p : CalcParameters)
    (row : CompRow) (h : a.to_list p = some row) :
    row.ogn_comp_w_interest_human = row.ogn_comp_raw * (5 / 4) / 10 ^ 18
      ∧ row.ogn_comp_human = row.ogn_comp_raw / 10 ^ 18
      ∧ (∃ g : Int, a.adjusted_ogn_compensation p = some g
          ∧ row.ogn_comp_raw = (g : Rat))
      ∧ row.ousd_comp_human = row.ousd_comp_raw / 10 ^ 18
      ∧ row.eligible_human = row.eligible_raw / 10 ^ 18
      ∧ row.ousd_comp_raw = a.adjusted_ousd_compensation p
      ∧ row.eligible_raw = a.eligible_balance_usd p := by
  cases hogn : a.adjusted_ogn_compensation p with
  | none => simp [Account.to_list, hogn] at h
  | some g =>
      simp only [Account.to_list, hogn] at h
      cases h
      exact ⟨rfl, rfl, ⟨g, rfl, rfl⟩, rfl, rfl, rfl, rfl⟩

/-- The concrete row printed for the Scenario B account. -/
def scenarioBRow : CompRow :=
  { address := "0x02"
    eligible_human := 500 / 10 ^ 18
    ousd_comp_human := 500 / 10 ^ 18
    ogn_comp_w_interest_human := 0
    ogn_comp_human := 0
    eligible_raw := 500
    ousd_comp_raw := 500
    ogn_comp_raw := 0 }

/-- Witness for C10 at the Scenario B account. -/
theorem output_row_bonus_column_witness :
    scenarioBAcct.to_list scenarioBParams = some scenarioBRow
      ∧ scenarioBRow.ogn_comp_w_interest_human
          = scenarioBRow.ogn_comp_raw * (5 / 4) / 10 ^ 18
      ∧ scenarioBRow.ogn_comp_human = scenarioBRow.ogn_comp_raw / 10 ^ 18
      ∧ (∃ g : Int,
          scenarioBAcct.adjusted_ogn_compensation scenarioBParams = some g
            ∧ scenarioBRow.ogn_comp_raw = (g : Rat)) := by
  have he : scenarioBAcct.eligible_balance_usd scenarioBParams = 500 := by
    simp [scenarioBAcct, scenarioBParams, Account.eligible_balance_usd,
      Account.trading_gain_total_usd, Account.trading_gain_usdt,
      Account.trading_gain_usdc, Account.trading_gain_weth,
      Account.trading_gain_virgox, Account.eth_to_usd, convert_decimals,
      Account.usdt_swap_in, Account.usdt_swap_out, Account.usdc_swap_in,
      Account.usdc_swap_out, Account.weth_swap_in, Account.weth_swap_out,
      swapInSum, swapOutSum]
  have hogn : scenarioBAcct.adjusted_ogn_compensation scenarioBParams
      = some 0 := by
    unfold Account.adjusted_ogn_compensation
    rw [if_pos (by rw [he]; norm_num [scenarioBParams])]
  have hrow : scenarioBAcct.to_list scenarioBParams = some scenarioBRow := by
    simp only [Account.to_list, hogn]
    have ho : scenarioBAcct.adjusted_ousd_compensation scenarioBParams
        = 500 := by
      unfold Account.adjusted_ousd_compensation
      rw [if_pos (by rw [he]; norm_num [scenarioBParams])]
      exact he
    simp [scenarioBRow, he, ho]
    rfl
  have h := output_row_bonus_column scenarioBAcct scenarioBParams
    scenarioBRow hrow
  exact ⟨hrow, h.1, h.2.1, h.2.2.1⟩

/-! ## Claim theorems for the swap flow classifier -/

/-- A swap event where the tracked asset enters the pool along with
nonzero outbound tracked-asset dust. -/
def dustSwapEvent : SwapEvent :=
  { amount0In := 100, amount0Out := 5, amount1In := 0, amount1Out := 50 }

/-- C7 counterexample: in the sell direction the tracked-asset figure is the
raw amount0In (100), not amount0Out - amount0In (-95), so the claim that both
sides are computed as amount-out minus amount-in is false. -/
theorem swap_change_netting_cex :
    swapDirection dustSwapEvent = SwapDir.right
      ∧ aChange dustSwapEvent
          ≠ dustSwapEvent.amount0Out - dustSwapEvent.amount0In := by
  constructor
  · simp [dustSwapEvent, swapDirection]
  · simp [dustSwapEvent, aChange, swapDirection]

/-- C7 amended: the out minus in netting is applied exactly on the output
side of the swap, in both directions, while the input side carries its raw
amount-in; the direction tag is determined by the larger outgoing amount. -/
theorem swap_change_sides (e : SwapEvent) :
    (swapDirection e = SwapDir.left ↔ e.amount1Out < e.amount0Out)
      ∧ (swapDirection e = SwapDir.left →
          aChange e = e.amount0Out - e.amount0In ∧ bChange e = e.amount1In)
      ∧ (swapDirection e = SwapDir.right →
          aChange e = e.amount0In
            ∧ bChange e = e.amount1Out - e.amount1In) := by
  refine ⟨?_, fun h => ?_, fun h => ?_⟩
  · unfold swapDirection
    split_ifs with hlt
    · simp [hlt]
    · simp [hlt]
  · unfold aChange bChange
    rw [if_pos h, if_pos h]
    exact ⟨rfl, rfl⟩
  · have h2 : ¬ swapDirection e = SwapDir.left := by
      rw [h]; intro hc; exact SwapDir.noConfusion hc
    unfold aChange bChange
    rw [if_neg h2, if_neg h2]
    exact ⟨rfl, rfl⟩

/-- A swap event in the buy direction with inbound tracked-asset dust. -/
def buySwapEvent : SwapEvent :=
  { amount0In := 2, amount0Out := 50, amount1In := 7, amount1Out := 0 }

/-- Witness for C7 at a concrete buy-direction event: the tracked-asset
figure nets the inbound dust (50 - 2) and the counter figure is the raw
amount1In. -/
theorem swap_change_sides_witness :
    swapDirection buySwapEvent = SwapDir.left
      ∧ aChange buySwapEvent
          = buySwapEvent.amount0Out - buySwapEvent.amount0In
      ∧ bChange buySwapEvent = buySwapEvent.amount1In := by
  have hd : swapDirection buySwapEvent = SwapDir.left := by
    simp [buySwapEvent, swapDirection]
  exact ⟨hd, (swap_change_sides buySwapEvent).2.1 hd⟩

/-! ## Claim theorems for the ownership extractor -/

/-- C4: for a holder with nonzero share balance the emitted attributed
reserve amounts are the exact rational reserveX * balance / (totalSupply -
MINIMUM_LIQUIDITY), floored only at the point of output. -/
theorem attributed_reserve_formula (ts aS bS bal : Int) (h : bal ≠ 0) :
    (uniRecord ts aS bS bal).2.1
        = ⌊(aS : Rat) * (bal : Rat)
            / ((ts : Rat) - (minimumLiquidity : Rat))⌋
      ∧ (uniRecord ts aS bS bal).2.2
          = ⌊(bS : Rat) * (bal : Rat)
              / ((ts : Rat) - (minimumLiquidity : Rat))⌋ := by
  unfold uniRecord uniTokenBalance
  rw [if_pos h, if_pos h, mul_div_assoc, mul_div_assoc]
  exact ⟨rfl, rfl⟩

/-- Witness for C4 at Scenario A of the specification: totalSupply 1,000,000,
burn 1,000, holder share 500,000, reserveA 2,000,000 gives attributed
reserve floor(2,000,000 * 500,000 / 999,000) = 1,001,001. -/
theorem attributed_reserve_formula_witness :
    (500000 : Int) ≠ 0
      ∧ (uniRecord 1000000 2000000 0 500000).2.1 = 1001001 := by
  have h := attributed_reserve_formula 1000000 2000000 0 500000 (by decide)
  refine ⟨by decide, h.1.trans ?_⟩
  norm_num [minimumLiquidity]

/-- C1 counterexample: a mooniswap-variant run whose holder balances sum to
2000 while totalSupply - MINIMUM_LIQUIDITY = 4000 still passes every check
and emits its record set, because the script has no share-supply
reconciliation check. -/
theorem conservation_iff_cex :
    mooniswapRun 5000 0 0 [2000] ≠ none
      ∧ List.sum [(2000 : Int)] ≠ 5000 - minimumLiquidity := by
  constructor
  · simp [mooniswapRun, mooniswapChecksPass, mooniRunningA,
      mooniTokenBalance, maxRoundingDrift]
  · simp [minimumLiquidity]

/-- The attributed running total is the reserve scaled by the ratio of the
balance sum to the attributable supply. -/
lemma uniRunningA_eq (ts aS : Int) (bals : List Int) :
    uniRunningA ts aS bals
      = (aS : Rat) * ((bals.sum : Rat)
          / ((ts : Rat) - (minimumLiquidity : Rat))) := by
  induction bals with
  | nil => simp [uniRunningA]
  | cons b bs ih =>
      have hstep : uniRunningA ts aS (b :: bs)
          = uniTokenBalance aS ts b + uniRunningA ts aS bs := by
        simp [uniRunningA]
      have hb : uniTokenBalance aS ts b
          = (aS : Rat) * ((b : Rat)
              / ((ts : Rat) - (minimumLiquidity : Rat))) := by
        unfold uniTokenBalance
        split_ifs with h
        · rfl
        · rw [not_not.mp h]
          simp
      rw [hstep, hb, ih, List.sum_cons, Int.cast_add]
      ring

/-- C1 amended: each variant emits its record set exactly when its own check
list passes.  The uniswap variant requires the exact share-supply
reconciliation plus two one-sided reserve drift checks; the sushiswap
variant additionally requires the staking-contract balance to reconcile with
the per-user staked balances; the mooniswap variant checks only the two
two-sided reserve drifts and never reconciles the share supply.  Moreover
for the uniswap variant a passing supply check with nonzero attributable
supply already forces the drift checks, hence success. -/
theorem conservation_checks_characterization :
    (∀ (ts aS bS : Int) (bals : List Int),
        uniswapRun ts aS bS bals ≠ none ↔
          bals.sum = ts - minimumLiquidity
            ∧ (aS : Rat) - uniRunningA ts aS bals ≤ maxRoundingDrift
            ∧ (bS : Rat) - uniRunningA ts bS bals ≤ maxRoundingDrift)
      ∧ (∀ (ts aS bS : Int) (holders : List SushiHolder),
          sushiswapRun ts aS bS holders ≠ none ↔
            (sushiFinal ts aS bS holders).rtnc
                + (sushiFinal ts aS bS holders).mct
                = (sushiFinal ts aS bS holders).rt
              ∧ (sushiFinal ts aS bS holders).rtnc
                  + (sushiFinal ts aS bS holders).mct
                  = ts - minimumLiquidity
              ∧ (aS : Rat) - (sushiFinal ts aS bS holders).rta
                  ≤ maxRoundingDrift
              ∧ (bS : Rat) - (sushiFinal ts aS bS holders).rtb
                  ≤ maxRoundingDrift)
      ∧ (∀ (ts aS bS : Int) (bals : List Int),
          mooniswapRun ts aS bS bals ≠ none ↔
            |(aS : Rat) - mooniRunningA ts aS bals| ≤ maxRoundingDrift
              ∧ |(bS : Rat) - mooniRunningA ts bS bals| ≤ maxRoundingDrift)
      ∧ (∀ (ts aS bS : Int) (bals : List Int),
          bals.sum = ts - minimumLiquidity →
          (ts : Rat) - (minimumLiquidity : Rat) ≠ 0 →
          uniswapRun ts aS bS bals ≠ none) := by
  have hu : ∀ (ts aS bS : Int) (bals : List Int),
      uniswapRun ts aS bS bals ≠ none ↔
        bals.sum = ts - minimumLiquidity
          ∧ (aS : Rat) - uniRunningA ts aS bals ≤ maxRoundingDrift
          ∧ (bS : Rat) - uniRunningA ts bS bals ≤ maxRoundingDrift := by
    intro ts aS bS bals
    unfold uniswapRun
    split_ifs with hc
    · simp only [ne_eq, reduceCtorEq, not_false_eq_true, true_iff]
      unfold uniswapChecksPass at hc
      simp only [Bool.and_eq_true, beq_iff_eq, decide_eq_true_eq] at hc
      tauto
    · simp only [ne_eq, not_true_eq_false, false_iff]
      unfold uniswapChecksPass at hc
      simp only [Bool.and_eq_true, beq_iff_eq, decide_eq_true_eq] at hc
      tauto
  refine ⟨hu, ?_, ?_, ?_⟩
  · intro ts aS bS holders
    unfold sushiswapRun
    split_ifs with hc
    · simp only [ne_eq, reduceCtorEq, not_false_eq_true, true_iff]
      unfold sushiswapChecksPass at hc
      simp only [Bool.and_eq_true, beq_iff_eq, decide_eq_true_eq] at hc
      tauto
    · simp only [ne_eq, not_true_eq_false, false_iff]
      unfold sushiswapChecksPass at hc
      simp only [Bool.and_eq_true, beq_iff_eq, decide_eq_true_eq] at hc
      tauto
  · intro ts aS bS bals
    unfold mooniswapRun
    split_ifs with hc
    · simp only [ne_eq, reduceCtorEq, not_false_eq_true, true_iff]
      unfold mooniswapChecksPass at hc
      simp only [Bool.and_eq_true, beq_iff_eq, decide_eq_true_eq] at hc
      tauto
    · simp only [ne_eq, not_true_eq_false, false_iff]
      unfold mooniswapChecksPass at hc
      simp only [Bool.and_eq_true, beq_iff_eq, decide_eq_true_eq] at hc
      tauto
  · intro ts aS bS bals hsum hD
    have hA : uniRunningA ts aS bals = (aS : Rat) := by
      rw [uniRunningA_eq, hsum]
      push_cast
      rw [div_self hD, mul_one]
    have hB : uniRunningA ts bS bals = (bS : Rat) := by
      rw [uniRunningA_eq, hsum]
      push_cast
      rw [div_self hD, mul_one]
    rw [hu]
    refine ⟨hsum, ?_, ?_⟩
    · rw [hA]
      simp [maxRoundingDrift]
    · rw [hB]
      simp [maxRoundingDrift]

/-- Witness for C1 at a concrete uniswap-variant run: totalSupply 2000, one
holder owning the whole attributable supply of 1000; the supply check passes
and the run emits its records. -/
theorem conservation_checks_characterization_witness :
    List.sum [(1000 : Int)] = 2000 - minimumLiquidity
      ∧ ((2000 : Rat) - (minimumLiquidity : Rat) ≠ 0)
      ∧ uniswapRun 2000 7 9 [1000] ≠ none := by
  have h1 : List.sum [(1000 : Int)] = 2000 - minimumLiquidity := by
    simp [minimumLiquidity]
  have h2 : (2000 : Rat) - (minimumLiquidity : Rat) ≠ 0 := by
    norm_num [minimumLiquidity]
  exact ⟨h1, h2,
    conservation_checks_characterization.2.2.2 2000 7 9 [1000] h1 h2⟩

/-! ## Claim theorems for participant discovery -/

/-- Membership after one addAddr step. -/
lemma mem_addAddr (keep : String → Bool) (acc : List String) (x a : String) :
    a ∈ addAddr keep acc x ↔ a ∈ acc ∨ (a = x ∧ keep x = true) := by
  unfold addAddr
  split_ifs with h
  · simp only [List.mem_append, List.mem_singleton]
    constructor
    · rintro (ha | ha)
      · exact Or.inl ha
      · exact Or.inr ⟨ha, h.1⟩
    · rintro (ha | ⟨ha, _⟩)
      · exact Or.inl ha
      · exact Or.inr ha
  · constructor
    · exact Or.inl
    · rintro (ha | ⟨rfl, hk⟩)
      · exact ha
      · rcases not_and_or.mp h with hk2 | hmem
        · exact absurd hk hk2
        · exact not_not.mp hmem

/-- addAddr preserves freedom from duplicates. -/
lemma nodup_addAddr (keep : String → Bool) (acc : List String) (x : String)
    (h : acc.Nodup) : (addAddr keep acc x).Nodup := by
  unfold addAddr
  split_ifs with hc
  · rw [List.nodup_append]
    exact ⟨h, List.nodup_singleton x, by simpa using hc.2⟩
  · exact h

/-- Membership in a collected address set. -/
lemma mem_collectAddrs (keep : String → Bool) :
    ∀ (l acc : List String) (a : String),
      a ∈ collectAddrs keep acc l ↔ a ∈ acc ∨ (a ∈ l ∧ keep a = true) := by
  intro l
  induction l with
  | nil => intro acc a; simp [collectAddrs]
  | cons x xs ih =>
      intro acc a
      have hstep : collectAddrs keep acc (x :: xs)
          = collectAddrs keep (addAddr keep acc x) xs := rfl
      rw [hstep, ih, mem_addAddr]
      constructor
      · rintro ((ha | ⟨rfl, hk⟩) | ⟨hx, hk⟩)
        · exact Or.inl ha
        · exact Or.inr ⟨List.mem_cons_self _ _, hk⟩
        · exact Or.inr ⟨List.mem_cons_of_mem _ hx, hk⟩
      · rintro (ha | ⟨hx, hk⟩)
        · exact Or.inl (Or.inl ha)
        · rcases List.mem_cons.mp hx with rfl | hx2
          · exact Or.inl (Or.inr ⟨rfl, hk⟩)
          · exact Or.inr ⟨hx2, hk⟩

/-- Collected address sets are free of duplicates. -/
lemma nodup_collectAddrs (keep : String → Bool) :
    ∀ (l acc : List String), acc.Nodup → (collectAddrs keep acc l).Nodup := by
  intro l
  induction l with
  | nil => intro acc h; exact h
  | cons x xs ih =>
      intro acc h
      exact ih (addAddr keep acc x) (nodup_addAddr keep acc x h)

/-- Collecting only ever appends to the accumulator: earlier-discovered
addresses keep their positions, which is the first-seen ordering. -/
lemma collectAddrs_extends (keep : String → Bool) :
    ∀ (l acc : List String), ∃ t, collectAddrs keep acc l = acc ++ t := by
  intro l
  induction l with
  | nil => intro acc; exact ⟨[], by simp [collectAddrs]⟩
  | cons x xs ih =>
      intro acc
      have hstep : collectAddrs keep acc (x :: xs)
          = collectAddrs keep (addAddr keep acc x) xs := rfl
      obtain ⟨t, ht⟩ := ih (addAddr keep acc x)
      rw [hstep, ht]
      unfold addAddr
      split_ifs
      · exact ⟨[x] ++ t, by simp⟩
      · exact ⟨t, rfl⟩

/-- The mint loop aborts exactly when some mint event has an unrecognized
originating call signature. -/
lemma processMints_none_iff (sigs : List String) :
    ∀ (mints : List MintEvent) (acc : List String),
      processMints sigs mints acc = none ↔
        ∃ m ∈ mints, recognizedOrigin sigs m.txInput = false := by
  intro mints
  induction mints with
  | nil => intro acc; simp [processMints]
  | cons m ms ih =>
      intro acc
      unfold processMints
      split_ifs with h
      · rw [ih]
        constructor
        · rintro ⟨m2, hm2, hrec⟩
          exact ⟨m2, List.mem_cons_of_mem _ hm2, hrec⟩
        · rintro ⟨m2, hm2, hrec⟩
          rcases List.mem_cons.mp hm2 with rfl | hm3
          · rw [h] at hrec; exact absurd hrec (by simp)
          · exact ⟨m2, hm3, hrec⟩
      · simp only [ne_eq, true_iff]
        exact ⟨m, List.mem_cons_self _ _, Bool.not_eq_true _ ▸ by
          simpa using h⟩

/-- On success the mint loop records exactly the transaction senders,
deduplicated and with the zero address excluded. -/
lemma processMints_some_eq (sigs : List String) :
    ∀ (mints : List MintEvent) (acc out : List String),
      processMints sigs mints acc = some out →
        out = collectAddrs (fun a => a ≠ zeroAddress) acc
          (mints.map MintEvent.txFrom) := by
  intro mints
  induction mints with
  | nil =>
      intro acc out h
      simp only [processMints, Option.some.injEq] at h
      simp [collectAddrs, h]
  | cons m ms ih =>
      intro acc out h
      unfold processMints at h
      split_ifs at h with hrec
      exact ih _ out h

/-- C8: every Mint event whose transaction input matches no enumerated
add-liquidity signature aborts the whole mint loop, and on success the
recorded addresses are exactly the transaction senders (the from field),
deduplicated with the zero address excluded; the logged event sender is
never recorded. -/
theorem mint_origin_validation (sigs : List String) (mints : List MintEvent)
    (acc : List String) :
    (processMints sigs mints acc = none ↔
        ∃ m ∈ mints, recognizedOrigin sigs m.txInput = false)
      ∧ (∀ out, processMints sigs mints acc = some out →
          out = collectAddrs (fun a => a ≠ zeroAddress) acc
            (mints.map MintEvent.txFrom)) := by
  exact ⟨processMints_none_iff sigs mints acc,
    fun out h => processMints_some_eq sigs mints acc out h⟩

/-- A Mint event whose transaction calls addLiquidity, with distinct
transaction sender and logged (router) sender. -/
def mintW : MintEvent :=
  { txInput := "0xe8e33700cafe"
    txFrom := "0xAAA"
    loggedSender := "0xROUTER" }

/-- Witness for C8: the concrete recognized mint is accepted, the recorded
address is the transaction sender, and that differs from the logged event
sender. -/
theorem mint_origin_validation_witness :
    processMints uniswapSigs [mintW] [] = some [mintW.txFrom]
      ∧ [mintW.txFrom]
          = collectAddrs (fun a => a ≠ zeroAddress) []
              ([mintW].map MintEvent.txFrom)
      ∧ mintW.txFrom ≠ mintW.loggedSender := by
  have hp : processMints uniswapSigs [mintW] [] = some [mintW.txFrom] := by
    decide
  exact ⟨hp, (mint_origin_validation uniswapSigs [mintW] []).2 _ hp,
    by decide⟩

/-- C9 counterexample: the mooniswap-variant discovery filters only on
Python truthiness (non-empty string), so a Transfer whose recipient is the
zero address (an LP burn) puts the zero address into the participant set. -/
theorem participant_zero_address_cex :
    zeroAddress ∈ mooniswapDiscover [] [zeroAddress] := by
  simp [mooniswapDiscover, collectAddrs, addAddr, zeroAddress]

/-- C9 amended: every variant yields a deduplicated participant set and
collecting only appends, preserving first-seen order; the uniswap variant
excludes the zero address, while the mooniswap and snowswap variants exclude
only the empty string (so the zero address can appear there). -/
theorem participant_set_properties :
    (∀ (mints : List MintEvent) (transferTos out : List String),
        uniswapDiscover mints transferTos = some out →
          out.Nodup ∧ zeroAddress ∉ out)
      ∧ (∀ deps trs : List String,
          (mooniswapDiscover deps trs).Nodup
            ∧ "" ∉ mooniswapDiscover deps trs)
      ∧ (∀ users : List String,
          (snowswapDiscover users).Nodup ∧ "" ∉ snowswapDiscover users)
      ∧ (∀ (keep : String → Bool) (acc xs ys : List String),
          collectAddrs keep acc (xs ++ ys)
            = collectAddrs keep (collectAddrs keep acc xs) ys)
      ∧ (∀ (keep : String → Bool) (acc xs : List String),
          ∃ t, collectAddrs keep acc xs = acc ++ t)
      ∧ (∀ (keep : String → Bool) (l : List String) (a : String),
          a ∈ collectAddrs keep [] l ↔ a ∈ l ∧ keep a = true) := by
  have hmem0 : ∀ (keep : String → Bool) (l : List String) (a : String),
      a ∈ collectAddrs keep [] l ↔ a ∈ l ∧ keep a = true := by
    intro keep l a
    rw [mem_collectAddrs]
    simp
  refine ⟨?_, ?_, ?_, ?_, ?_, hmem0⟩
  · intro mints transferTos out h
    obtain ⟨acc, hacc, hout⟩ := Option.map_eq_some'.mp h
    have haccEq := processMints_some_eq uniswapSigs mints [] acc hacc
    constructor
    · rw [← hout]
      refine nodup_collectAddrs _ _ _ ?_
      rw [haccEq]
      exact nodup_collectAddrs _ _ _ List.nodup_nil
    · rw [← hout, mem_collectAddrs]
      rintro (hin | ⟨_, hk⟩)
      · rw [haccEq, hmem0] at hin
        simpa using hin.2
      · simp at hk
  · intro deps trs
    constructor
    · exact nodup_collectAddrs _ _ _
        (nodup_collectAddrs _ _ _ List.nodup_nil)
    · unfold mooniswapDiscover
      rw [mem_collectAddrs]
      rintro (hin | ⟨_, hk⟩)
      · rw [hmem0] at hin
        simpa using hin.2
      · simp at hk
  · intro users
    constructor
    · exact nodup_collectAddrs _ _ _ List.nodup_nil
    · unfold snowswapDiscover
      rw [hmem0]
      rintro ⟨_, hk⟩
      simp at hk
  · intro keep acc xs ys
    simp [collectAddrs, List.foldl_append]
  · intro keep acc xs
    exact collectAddrs_extends keep xs acc

/-- Witness for C9: a concrete uniswap-variant discovery run whose output is
deduplicated and zero-address-free. -/
theorem participant_set_properties_witness :
    uniswapDiscover [mintW] ["0xT1"] = some ["0xAAA", "0xT1"]
      ∧ List.Nodup ["0xAAA", "0xT1"]
      ∧ zeroAddress ∉ ["0xAAA", "0xT1"] := by
  have hp : uniswapDiscover [mintW] ["0xT1"] = some ["0xAAA", "0xT1"] := by
    decide
  exact ⟨hp, participant_set_properties.1 [mintW] ["0xT1"] _ hp⟩

end OusdComp
